import Mathlib

/-!
Verification of the subprocess-transport SDK (line-buffered JSON decoder,
transport receive path, message parser, client orchestration).

The repository ships only the test-suite and CLI wrappers of the SDK; the
implementation modules themselves (subprocess transport, message parser,
client) are not present.  Every component below is therefore modelled from
the specification (spec.md sections 3, 4.1 to 4.4, 6 and 7), with the
repository's tests fixing the concrete observable values (error payloads,
fixtures, the 1 MiB buffer bound).
-/

/-- Modelled from the spec: a decoded JSON value as produced by the
line-buffered decoder (spec section 3, RawEvent).  Numbers are modelled as
integers; the protocol fields the core inspects are integral or boolean. -/
inductive Json where
  | null
  | bool (b : Bool)
  | num (n : Int)
  | str (s : String)
  | arr (elems : List Json)
  | obj (fields : List (String × Json))

/-- The characters of a string literal (used to write concrete protocol
lines). -/
def strL (s : String) : List Char := s.data

/-- First binding of a key in an association list of JSON object fields. -/
def getAssoc : List (String × Json) → String → Option Json
  | [], _ => none
  | p :: ps, k => if p.1 = k then some p.2 else getAssoc ps k

/-- Field lookup on a JSON value; on non-objects there are no fields. -/
def getField : Json → String → Option Json
  | .obj fs, k => getAssoc fs k
  | _, _ => none

/-- Whether a JSON value is an object (a Python dict). -/
def isObject : Json → Bool
  | .obj _ => true
  | _ => false

/-- The Python-side runtime type name of a decoded value, as reported by
the parser's invalid-data-type error. -/
def pyTypeName : Json → String
  | .null => "NoneType"
  | .bool _ => "bool"
  | .num _ => "int"
  | .str _ => "str"
  | .arr _ => "list"
  | .obj _ => "dict"

/-- Whitespace characters (JSON inter-token whitespace). -/
def isWsCh (c : Char) : Bool := c = ' ' || c = '\t' || c = '\n' || c = '\r'

/-- Drop leading whitespace. -/
def skipWs : List Char → List Char
  | [] => []
  | c :: cs => if isWsCh c then skipWs cs else c :: cs

/-- JSON string-escape translation for the escapes the protocol uses. -/
def unescapeCh (c : Char) : Char :=
  if c = 'n' then '\n' else if c = 't' then '\t' else if c = 'r' then '\r' else c

/-- Scan the body of a JSON string literal up to its closing quote,
returning the translated body and the remaining input. -/
def scanStr : List Char → Option (List Char × List Char)
  | [] => none
  | c :: cs =>
    if c = '"' then some ([], cs)
    else if c = '\\' then
      match cs with
      | [] => none
      | e :: cs2 =>
        match scanStr cs2 with
        | some (body, rest) => some (unescapeCh e :: body, rest)
        | none => none
    else
      match scanStr cs with
      | some (body, rest) => some (c :: body, rest)
      | none => none

/-- Decimal digit test. -/
def isDigitCh (c : Char) : Bool := '0' ≤ c && c ≤ '9'

/-- Scan a maximal run of decimal digits. -/
def scanDigits : List Char → List Char × List Char
  | [] => ([], [])
  | c :: cs =>
    if isDigitCh c then
      match scanDigits cs with
      | (ds, rest) => (c :: ds, rest)
    else ([], c :: cs)

/-- Numeric value of a decimal digit character. -/
def digitVal (c : Char) : Nat := c.toNat - '0'.toNat

/-- Numeric value of a digit run. -/
def digitsToNat (ds : List Char) : Nat := ds.foldl (fun acc c => 10 * acc + digitVal c) 0

mutual

/-- Modelled from the spec: recursive-descent JSON value parser (the
decoder hands each complete line to the platform JSON codec, an external
collaborator; this models the JSON grammar the protocol uses).  Fuel
bounds the nesting recursion. -/
def parseValue : Nat → List Char → Option (Json × List Char)
  | 0, _ => none
  | fuel + 1, s =>
    match skipWs s with
    | [] => none
    | c :: rest =>
      if c = '"' then
        match scanStr rest with
        | some (cs, rest2) => some (Json.str (String.mk cs), rest2)
        | none => none
      else if c = 't' then
        if rest.take 3 = ['r', 'u', 'e'] then some (Json.bool true, rest.drop 3) else none
      else if c = 'f' then
        if rest.take 4 = ['a', 'l', 's', 'e'] then some (Json.bool false, rest.drop 4) else none
      else if c = 'n' then
        if rest.take 3 = ['u', 'l', 'l'] then some (Json.null, rest.drop 3) else none
      else if c = '-' then
        match scanDigits rest with
        | ([], _) => none
        | (ds, rest2) => some (Json.num (-(digitsToNat ds : Int)), rest2)
      else if isDigitCh c then
        match scanDigits (c :: rest) with
        | ([], _) => none
        | (ds, rest2) => some (Json.num (digitsToNat ds : Int), rest2)
      else if c = '[' then
        match skipWs rest with
        | ']' :: rest2 => some (Json.arr [], rest2)
        | _ =>
          match parseItems fuel rest with
          | some (items, rest2) => some (Json.arr items, rest2)
          | none => none
      else if c = '\x7b' then
        match skipWs rest with
        | '\x7d' :: rest2 => some (Json.obj [], rest2)
        | _ =>
          match parseFields fuel rest with
          | some (fields, rest2) => some (Json.obj fields, rest2)
          | none => none
      else none

/-- Comma-separated JSON array items up to the closing bracket. -/
def parseItems : Nat → List Char → Option (List Json × List Char)
  | 0, _ => none
  | fuel + 1, s =>
    match parseValue fuel s with
    | none => none
    | some (j, rest) =>
      match skipWs rest with
      | ',' :: rest2 =>
        match parseItems fuel rest2 with
        | some (items, rest3) => some (j :: items, rest3)
        | none => none
      | ']' :: rest2 => some ([j], rest2)
      | _ => none

/-- Comma-separated JSON object fields up to the closing brace. -/
def parseFields : Nat → List Char → Option (List (String × Json) × List Char)
  | 0, _ => none
  | fuel + 1, s =>
    match skipWs s with
    | '"' :: rest =>
      match scanStr rest with
      | none => none
      | some (key, rest2) =>
        match skipWs rest2 with
        | ':' :: rest3 =>
          match parseValue fuel rest3 with
          | none => none
          | some (v, rest4) =>
            match skipWs rest4 with
            | ',' :: rest5 =>
              match parseFields fuel rest5 with
              | some (fields, rest6) => some ((String.mk key, v) :: fields, rest6)
              | none => none
            | '\x7d' :: rest5 => some ([(String.mk key, v)], rest5)
            | _ => none
        | _ => none
    | _ => none

end

/-- Modelled from the spec: decode one line as a single JSON value with
nothing but whitespace after it (spec section 4.1, one object per
newline-terminated line). -/
def parseJson (l : List Char) : Option Json :=
  match parseValue (2 * l.length + 4) l with
  | some (j, rest) => if (skipWs rest).isEmpty then some j else none
  | none => none

/-! ## Line-buffered JSON decoder (spec section 4.1) -/

/-- Modelled from the spec: the fixed maximum buffer size of the decoder,
1 MiB (spec section 4.1, pinned by the buffer-overflow test). -/
def MAX_BUFFER_SIZE : Nat := 1024 * 1024

/-- Decode-stage failures: a buffer overflow (carrying the buffer length)
or a line that is not valid JSON (carrying the offending line). -/
inductive DecodeError where
  | bufferOverflow (size : Nat)
  | invalidJson (line : List Char)

/-- Split a character stream at newlines: all but the last segment are
complete lines, the last segment is the residue after the final newline. -/
def splitNl : List Char → List (List Char) × List Char
  | [] => ([], [])
  | c :: cs =>
    match splitNl cs with
    | (ls, res) =>
      if c = '\n' then ([] :: ls, res)
      else
        match ls with
        | [] => ([], c :: res)
        | l :: ls2 => ((c :: l) :: ls2, res)

/-- Parse a batch of complete lines in order: blank lines are dropped,
an invalid line stops the batch with a decode error, the objects decoded
before the failure are kept (they were already yielded). -/
def processLines : List (List Char) → List Json × Option DecodeError
  | [] => ([], none)
  | l :: ls =>
    if (skipWs l).isEmpty then processLines ls
    else
      match parseJson l with
      | none => ([], some (DecodeError.invalidJson l))
      | some j =>
        match processLines ls with
        | (objs, e) => (j :: objs, e)

/-- Modelled from the spec: the decoder loop (spec section 4.1).  Starting
from the buffered residue, each incoming chunk is appended, the buffer is
split at newlines, the complete lines are decoded in order, and the last
segment becomes the new residue; a residue that has grown past
MAX_BUFFER_SIZE without a newline fails with a buffer-overflow error. -/
def runFrom : List Char → List (List Char) → List Json × Option DecodeError
  | _, [] => ([], none)
  | buf, c :: cs =>
    match splitNl (buf ++ c) with
    | (lines, residue) =>
      match processLines lines with
      | (objs, some e) => (objs, some e)
      | (objs, none) =>
        if MAX_BUFFER_SIZE < residue.length then
          (objs, some (DecodeError.bufferOverflow residue.length))
        else
          match runFrom residue cs with
          | (objs2, e2) => (objs ++ objs2, e2)

/-- Run the decoder on a chunked stream from an empty buffer, returning
the decoded objects in order and the terminal decode error, if any. -/
def runDecoder (chunks : List (List Char)) : List Json × Option DecodeError :=
  runFrom [] chunks

/-- A well-formed JSON-lines stream: each line followed by a newline. -/
def joinLines (ls : List (List Char)) : List Char :=
  (ls.map (fun l => l ++ ['\n'])).flatten

/-! ## Transport receive path (spec section 4.2) -/

/-- The discriminator tag of a decoded raw event, when it is a string. -/
def tagOf (j : Json) : Option String :=
  match getField j "type" with
  | some (Json.str s) => some s
  | _ => none

/-- Whether a raw event is a control-response envelope. -/
def isCtl (j : Json) : Bool :=
  match tagOf j with
  | some t => if t = "control_response" then true else false
  | none => false

/-- The stored payload of a control-response envelope: its response object
keyed by the response's request id. -/
def ctlPayload (j : Json) : Option (String × Json) :=
  if isCtl j then
    match getField j "response" with
    | some resp =>
      match getField resp "request_id" with
      | some (Json.str rid) => some (rid, resp)
      | _ => none
    | none => none
  else none

/-- Modelled from the spec: the receive loop's control-response filter
(spec section 4.2).  Control-response events are never yielded; their
response payload is recorded in the pending-control-responses map keyed
by request id; every other decoded object is yielded unchanged in order. -/
def receiveRun (pending : List (String × Json)) : List Json → List (String × Json) × List Json
  | [] => (pending, [])
  | j :: js =>
    if isCtl j then
      receiveRun ((ctlPayload j).elim pending (fun p => p :: pending)) js
    else
      match receiveRun pending js with
      | (pend2, ys) => (pend2, j :: ys)

/-- Retrieve a stored control response by request id (most recent first). -/
def lookupPending : List (String × Json) → String → Option Json
  | [], _ => none
  | p :: ps, rid => if p.1 = rid then some p.2 else lookupPending ps rid

/-- Transport-level failures of the receive path (spec section 7). -/
inductive TransportError where
  | notConnected
  | jsonDecode (e : DecodeError)
  | processError (exitCode : Int) (stderrText : String)

/-- Modelled from the spec: Transport.receive_messages (spec section 4.2).
Requires the connected state; decodes the chunked standard-output stream;
filters and stores control responses; yields all other decoded objects in
order.  A decode failure terminates the sequence with that error;
otherwise, when the process exited non-zero, the sequence ends with a
process error carrying the exit code and the captured stderr text.
Returns (yielded events, pending control responses, terminal error). -/
def receiveMessages (connected : Bool) (chunks : List (List Char))
    (exitCode : Int) (stderrText : String) :
    List Json × List (String × Json) × Option TransportError :=
  if connected then
    match runDecoder chunks with
    | (objs, decErr) =>
      match receiveRun [] objs with
      | (pending, yielded) =>
        match decErr with
        | some e => (yielded, pending, some (TransportError.jsonDecode e))
        | none =>
          if exitCode = 0 then (yielded, pending, none)
          else (yielded, pending, some (TransportError.processError exitCode stderrText))
  else ([], [], some TransportError.notConnected)

/-! ## Message parser (spec section 4.3) -/

/-- Modelled from the spec: the closed content-block variant set
(spec section 3). -/
inductive ContentBlock where
  | text (text : String)
  | thinking (thinking : String) (signature : String)
  | toolUse (id : String) (name : String) (input : Json)
  | toolResult (toolUseId : String) (content : Option Json) (isError : Option Bool)

/-- Modelled from the spec: the closed domain-message variant set
(spec section 3). -/
inductive Message where
  | user (content : String ⊕ List ContentBlock)
  | assistant (model : String) (content : List ContentBlock)
  | system (subtype : String) (data : Json)
  | result (subtype : String) (durationMs : Int) (durationApiMs : Int)
      (isError : Bool) (numTurns : Int) (sessionId : String)
      (totalCostUsd : Option Json) (usage : Option Json) (resultText : Option Json)

/-- Parse failures of the message parser, mirroring the error texts the
tests assert: the actual type of a non-dict input, the missing
discriminator, the unrecognized discriminator value, and missing or
ill-typed fields named together with the message kind. -/
inductive ParseError where
  | invalidDataType (gotType : String)
  | missingTypeField
  | unknownType (v : Json)
  | missingField (kind fld : String)
  | wrongType (kind fld : String)
  | unknownBlockType (t : String)

/-- An optional field: absent and explicitly null are both empty. -/
def optField (j : Json) (fld : String) : Option Json :=
  match getField j fld with
  | none => none
  | some Json.null => none
  | some v => some v

/-- An optional boolean field. -/
def optBoolField (j : Json) (fld : String) : Option Bool :=
  match optField j fld with
  | some (Json.bool b) => some b
  | _ => none

/-- Modelled from the spec: parse one content block, validating the
block's required fields; assistant messages may additionally carry
thinking blocks (spec sections 3 and 4.3). -/
def parseBlock (allowThinking : Bool) (b : Json) : Except ParseError ContentBlock :=
  match tagOf b with
  | none => Except.error (ParseError.missingField "content block" "type")
  | some t =>
    if t = "text" then
      match getField b "text" with
      | some (Json.str s) => Except.ok (ContentBlock.text s)
      | _ => Except.error (ParseError.missingField "text block" "text")
    else if t = "tool_use" then
      match getField b "id", getField b "name", getField b "input" with
      | some (Json.str i), some (Json.str n), some inp =>
        Except.ok (ContentBlock.toolUse i n inp)
      | _, _, _ => Except.error (ParseError.missingField "tool_use block" "id, name, input")
    else if t = "tool_result" then
      match getField b "tool_use_id" with
      | some (Json.str tid) =>
        Except.ok (ContentBlock.toolResult tid (optField b "content") (optBoolField b "is_error"))
      | _ => Except.error (ParseError.missingField "tool_result block" "tool_use_id")
    else if t = "thinking" then
      if allowThinking then
        match getField b "thinking", getField b "signature" with
        | some (Json.str th), some (Json.str sig) =>
          Except.ok (ContentBlock.thinking th sig)
        | _, _ => Except.error (ParseError.missingField "thinking block" "thinking, signature")
      else Except.error (ParseError.unknownBlockType t)
    else Except.error (ParseError.unknownBlockType t)

/-- Modelled from the spec: parse a user message; content is a literal
string or an ordered block sequence; a missing nested message object or
missing content is a missing-field error naming the message kind. -/
def parseUser (j : Json) : Except ParseError Message :=
  match getField j "message" with
  | none => Except.error (ParseError.missingField "user" "message")
  | some m =>
    match getField m "content" with
    | none => Except.error (ParseError.missingField "user" "content")
    | some (Json.str s) => Except.ok (Message.user (Sum.inl s))
    | some (Json.arr bs) =>
      match bs.mapM (parseBlock false) with
      | Except.ok cbs => Except.ok (Message.user (Sum.inr cbs))
      | Except.error e => Except.error e
    | some _ => Except.error (ParseError.wrongType "user" "content")

/-- Modelled from the spec: parse an assistant message; nested model and
content (ordered block sequence, thinking allowed) are required. -/
def parseAssistant (j : Json) : Except ParseError Message :=
  match getField j "message" with
  | none => Except.error (ParseError.missingField "assistant" "message")
  | some m =>
    match getField m "model" with
    | none => Except.error (ParseError.missingField "assistant" "model")
    | some (Json.str mo) =>
      match getField m "content" with
      | none => Except.error (ParseError.missingField "assistant" "content")
      | some (Json.arr bs) =>
        match bs.mapM (parseBlock true) with
        | Except.ok cbs => Except.ok (Message.assistant mo cbs)
        | Except.error e => Except.error e
      | some _ => Except.error (ParseError.wrongType "assistant" "content")
    | some _ => Except.error (ParseError.wrongType "assistant" "model")

/-- Modelled from the spec: parse a system message; subtype is required,
every other top-level field is preserved verbatim as opaque data. -/
def parseSystem (j : Json) : Except ParseError Message :=
  match getField j "subtype" with
  | some (Json.str st) => Except.ok (Message.system st j)
  | _ => Except.error (ParseError.missingField "system" "subtype")

/-- Modelled from the spec: parse a result message; subtype, duration_ms,
duration_api_ms, is_error, num_turns and session_id are required, and
total_cost_usd, usage and result default to empty when absent or null. -/
def parseResult (j : Json) : Except ParseError Message :=
  match getField j "subtype" with
  | none => Except.error (ParseError.missingField "result" "subtype")
  | some (Json.str st) =>
    match getField j "duration_ms" with
    | none => Except.error (ParseError.missingField "result" "duration_ms")
    | some (Json.num d1) =>
      match getField j "duration_api_ms" with
      | none => Except.error (ParseError.missingField "result" "duration_api_ms")
      | some (Json.num d2) =>
        match getField j "is_error" with
        | none => Except.error (ParseError.missingField "result" "is_error")
        | some (Json.bool ie) =>
          match getField j "num_turns" with
          | none => Except.error (ParseError.missingField "result" "num_turns")
          | some (Json.num nt) =>
            match getField j "session_id" with
            | none => Except.error (ParseError.missingField "result" "session_id")
            | some (Json.str sid) =>
              Except.ok (Message.result st d1 d2 ie nt sid
                (optField j "total_cost_usd") (optField j "usage") (optField j "result"))
            | some _ => Except.error (ParseError.wrongType "result" "session_id")
          | some _ => Except.error (ParseError.wrongType "result" "num_turns")
        | some _ => Except.error (ParseError.wrongType "result" "is_error")
      | some _ => Except.error (ParseError.wrongType "result" "duration_api_ms")
    | some _ => Except.error (ParseError.wrongType "result" "duration_ms")
  | some _ => Except.error (ParseError.wrongType "result" "subtype")

/-- Modelled from the spec: parse_message, the total pure raw-event to
domain-message function, failing closed (spec section 4.3): non-objects,
a missing discriminator, and an unrecognized discriminator are errors;
the four recognized discriminators dispatch to the variant parsers. -/
def parse_message (j : Json) : Except ParseError Message :=
  if isObject j then
    match getField j "type" with
    | none => Except.error ParseError.missingTypeField
    | some (Json.str t) =>
      if t = "user" then parseUser j
      else if t = "assistant" then parseAssistant j
      else if t = "system" then parseSystem j
      else if t = "result" then parseResult j
      else Except.error (ParseError.unknownType (Json.str t))
    | some v => Except.error (ParseError.unknownType v)
  else Except.error (ParseError.invalidDataType (pyTypeName j))

/-! ## Client (spec section 4.4) -/

/-- Whether a parsed message is a ResultMessage (the end of one turn). -/
def isResultMessage : Message → Bool
  | Message.result .. => true
  | _ => false

/-- Modelled from the spec: Client.receive_messages — each raw event the
transport yields is pushed through the message parser; a parse failure
terminates the iteration with that error (spec sections 4.4 and 7). -/
def clientReceiveMessages : List Json → List Message × Option ParseError
  | [] => ([], none)
  | j :: js =>
    match parse_message j with
    | Except.error e => ([], some e)
    | Except.ok m =>
      match clientReceiveMessages js with
      | (ms, e) => (m :: ms, e)

/-- Modelled from the spec: Client.receive_response — identical to
receive_messages but terminating inclusively at the first ResultMessage,
ignoring all subsequent events (spec section 4.4). -/
def receiveResponse : List Json → List Message × Option ParseError
  | [] => ([], none)
  | j :: js =>
    match parse_message j with
    | Except.error e => ([], some e)
    | Except.ok m =>
      if isResultMessage m then ([m], none)
      else
        match receiveResponse js with
        | (ms, e) => (m :: ms, e)

/-- A prompt handed to Client.query: a literal string or an ordered
sequence of pre-shaped dict-like objects (the streaming form). -/
inductive Prompt where
  | strP (s : String)
  | streamP (msgs : List Json)

/-- Modelled from the spec: the outbound envelope built for a string
prompt (spec section 3, OutboundEnvelope). -/
def mkEnvelope (content sessionId : String) : Json :=
  Json.obj [("type", Json.str "user"),
    ("message", Json.obj [("role", Json.str "user"), ("content", Json.str content)]),
    ("session_id", Json.str sessionId)]

/-- Set (or add) a field of a JSON object, preserving field order. -/
def setAssoc : List (String × Json) → String → Json → List (String × Json)
  | [], k, v => [(k, v)]
  | p :: ps, k, v => if p.1 = k then (k, v) :: ps else p :: setAssoc ps k v

/-- Stamp an outbound dict-like object with the session id. -/
def stampSession (sessionId : String) : Json → Json
  | Json.obj fs => Json.obj (setAssoc fs "session_id" (Json.str sessionId))
  | j => j

/-- Modelled from the spec: Client.query (spec section 4.4).  Requires the
connected state; a string prompt becomes exactly one outbound envelope; an
iterable prompt becomes one envelope per element, each stamped with the
session id; an empty iterable sends nothing.  Returns the outbound lines
written to the transport. -/
def clientQuery (connected : Bool) (p : Prompt) (sessionId : String) :
    Except TransportError (List Json) :=
  if connected then
    match p with
    | Prompt.strP s => Except.ok [mkEnvelope s sessionId]
    | Prompt.streamP msgs => Except.ok (msgs.map (stampSession sessionId))
  else Except.error TransportError.notConnected

/-- Count of outbound lines actually written by a query call. -/
def sentLineCount (r : Except TransportError (List Json)) : Nat :=
  match r with
  | Except.ok ms => ms.length
  | Except.error _ => 0

/-! ## Scoped-resource semantics (spec sections 4.4 and 7) -/

/-- Observable side of the Client/Transport lifecycle: how often connect
and disconnect ran and whether the transport is connected. -/
structure ClientResourceState where
  connectCalls : Nat
  disconnectCalls : Nat
  connected : Bool

/-- The state before the scope is entered. -/
def initialClientState : ClientResourceState :=
  { connectCalls := 0, disconnectCalls := 0, connected := false }

/-- Acquiring the scope connects the transport. -/
def connectClient (s : ClientResourceState) : ClientResourceState :=
  { s with connectCalls := s.connectCalls + 1, connected := true }

/-- Releasing the scope disconnects the transport. -/
def disconnectClient (s : ClientResourceState) : ClientResourceState :=
  { s with disconnectCalls := s.disconnectCalls + 1, connected := false }

/-- Modelled from the spec: scoped use of the client (spec section 4.4).
Acquiring connects; the body runs and may fail; release always
disconnects, on every exit path, and the body's failure is not
swallowed. -/
def withClientScope (body : ClientResourceState → ClientResourceState × Option ParseError)
    (s0 : ClientResourceState) : ClientResourceState × Option ParseError :=
  match body (connectClient s0) with
  | (s1, e) => (disconnectClient s1, e)

/-- Modelled from the spec: the internal client's process_query loop —
connect, drive the receive-and-parse iteration, disconnect on every exit
path including a parse failure mid-iteration, propagating the failure
(spec sections 4.4 and 7, pinned by the disconnect-on-error test). -/
def processQueryScoped (raws : List Json) (s0 : ClientResourceState) :
    (List Message × Option ParseError) × ClientResourceState :=
  match withClientScope (fun s => (s, (clientReceiveMessages raws).2)) s0 with
  | (s1, e) => (((clientReceiveMessages raws).1, e), s1)

/-! ## Entry-point marker variable (spec section 6) -/

/-- A process environment, as a key-value map. -/
def EnvMap : Type := List (String × String)

/-- Read an environment variable. -/
def getEnvVar : EnvMap → String → Option String
  | [], _ => none
  | p :: ps, k => if p.1 = k then some p.2 else getEnvVar ps k

/-- Write an environment variable (process-wide, last write wins). -/
def setEnvVar (env : EnvMap) (k v : String) : EnvMap := (k, v) :: env

/-- Modelled from the spec: constructing the interactive client stamps the
process-wide entry-point marker variable (spec section 6; the repository's
client-construction test pins the variable name and value). -/
def clientInitEnv (env : EnvMap) : EnvMap :=
  setEnvVar env "CLAUDE_CODE_ENTRYPOINT" "sdk-py-client"

/-- Modelled from the spec: the top-level one-shot query entry point
stamps the same marker with its own value (pinned by the query test). -/
def queryInitEnv (env : EnvMap) : EnvMap :=
  setEnvVar env "CLAUDE_CODE_ENTRYPOINT" "sdk-py"

/-! ## Claim C10: entry-point marker -/

/-- C10: constructing the interactive client sets the process-wide
CLAUDE_CODE_ENTRYPOINT variable to "sdk-py-client", observable after
construction in every prior environment; the top-level query entry point
sets it to "sdk-py". -/
theorem client_init_sets_entrypoint_env :
    (∀ env : EnvMap, getEnvVar (clientInitEnv env) "CLAUDE_CODE_ENTRYPOINT" = some "sdk-py-client")
    ∧ (∀ env : EnvMap, getEnvVar (queryInitEnv env) "CLAUDE_CODE_ENTRYPOINT" = some "sdk-py") := by
  constructor <;> intro env <;> simp [clientInitEnv, queryInitEnv, setEnvVar, getEnvVar]

/-! ## Claim C5: query envelope semantics -/

/-- C5 counterexample: query of the empty string sends one outbound
envelope, not zero; so the combined scenario of the claim sends one
outbound line in total. -/
theorem query_empty_string_counterexample :
    sentLineCount (clientQuery true (Prompt.strP "") "default") = 1 ∧
    sentLineCount (clientQuery true (Prompt.streamP []) "default") = 0 ∧
    sentLineCount (clientQuery true (Prompt.strP "") "default") +
      sentLineCount (clientQuery true (Prompt.streamP []) "default") ≠ 0 := by
  refine ⟨rfl, rfl, by decide⟩

/-- C5 (amended): query over an empty asynchronous prompt sequence sends
zero outbound lines; query("Hello") while connected sends exactly one
envelope whose message content is "Hello" and whose session id is
"default"; query("") sends exactly one envelope with empty content. -/
theorem client_query_envelope_semantics :
    (∀ sid : String, clientQuery true (Prompt.streamP []) sid = Except.ok []) ∧
    (clientQuery true (Prompt.strP "Hello") "default" = Except.ok [mkEnvelope "Hello" "default"]) ∧
    (getField (mkEnvelope "Hello" "default") "session_id" = some (Json.str "default")) ∧
    (getField (mkEnvelope "Hello" "default") "message" =
      some (Json.obj [("role", Json.str "user"), ("content", Json.str "Hello")])) ∧
    (getField (Json.obj [("role", Json.str "user"), ("content", Json.str "Hello")]) "content" =
      some (Json.str "Hello")) ∧
    (clientQuery true (Prompt.strP "") "default" = Except.ok [mkEnvelope "" "default"]) := by
  exact ⟨fun sid => rfl, rfl, by simp [mkEnvelope, getField, getAssoc],
    by simp [mkEnvelope, getField, getAssoc], by simp [getField, getAssoc], rfl⟩

/-! ## Claim C9: scoped resource always disconnects -/

/-- C9: used as a scoped resource, release always disconnects on every
exit path: for every body the scope runs disconnect exactly once more
than the body did, leaves the transport disconnected, and propagates the
body's failure unchanged; in particular the internal process_query loop
over any raw-event stream disconnects exactly once and surfaces the
iteration-time parse failure of that stream. -/
theorem scoped_client_always_disconnects :
    (∀ (body : ClientResourceState → ClientResourceState × Option ParseError)
       (s0 : ClientResourceState),
      (withClientScope body s0).1.disconnectCalls
          = (body (connectClient s0)).1.disconnectCalls + 1 ∧
      (withClientScope body s0).1.connected = false ∧
      (withClientScope body s0).2 = (body (connectClient s0)).2) ∧
    (∀ raws : List Json,
      (processQueryScoped raws initialClientState).2.disconnectCalls = 1 ∧
      (processQueryScoped raws initialClientState).2.connected = false ∧
      (processQueryScoped raws initialClientState).1.2 = (clientReceiveMessages raws).2) := by
  constructor
  · intro body s0
    rcases h : body (connectClient s0) with ⟨s1, e⟩
    simp [withClientScope, h, disconnectClient]
  · intro raws
    exact ⟨rfl, rfl, rfl⟩

/-! ## Claim C3: parse_message fails closed -/

/-- Minimal user-message fixture from the test-suite. -/
def userFixture : Json :=
  Json.obj [("type", Json.str "user"),
    ("message", Json.obj [("role", Json.str "user"), ("content", Json.str "Hello, Claude!")])]

/-- Minimal assistant-message fixture from the test-suite. -/
def assistantFixture : Json :=
  Json.obj [("type", Json.str "assistant"),
    ("message", Json.obj [("model", Json.str "claude-3"),
      ("content", Json.arr [Json.obj [("type", Json.str "text"),
        ("text", Json.str "Processing...")]])])]

/-- Minimal system-message fixture. -/
def systemFixture : Json :=
  Json.obj [("type", Json.str "system"), ("subtype", Json.str "status")]

/-- Minimal result-message fixture from the test-suite. -/
def resultFixtureMin : Json :=
  Json.obj [("type", Json.str "result"), ("subtype", Json.str "error"),
    ("duration_ms", Json.num 100), ("duration_api_ms", Json.num 80),
    ("is_error", Json.bool true), ("num_turns", Json.num 1),
    ("session_id", Json.str "error_session")]

/-- C3: parse_message fails closed — a non-object input fails reporting
the actual type, an object without the discriminator fails with the
missing-type error, an unrecognized discriminator fails reporting the
value, and each of the four recognized discriminators parses its minimal
fixture into the corresponding DomainMessage variant with the required
fields populated. -/
theorem parse_message_fails_closed :
    (∀ j : Json, isObject j = false →
      parse_message j = Except.error (ParseError.invalidDataType (pyTypeName j))) ∧
    (∀ fs : List (String × Json), getAssoc fs "type" = none →
      parse_message (Json.obj fs) = Except.error ParseError.missingTypeField) ∧
    (∀ (fs : List (String × Json)) (t : String), getAssoc fs "type" = some (Json.str t) →
      t ≠ "user" → t ≠ "assistant" → t ≠ "system" → t ≠ "result" →
      parse_message (Json.obj fs) = Except.error (ParseError.unknownType (Json.str t))) ∧
    parse_message userFixture = Except.ok (Message.user (Sum.inl "Hello, Claude!")) ∧
    parse_message assistantFixture =
      Except.ok (Message.assistant "claude-3" [ContentBlock.text "Processing..."]) ∧
    parse_message systemFixture = Except.ok (Message.system "status" systemFixture) ∧
    parse_message resultFixtureMin =
      Except.ok (Message.result "error" 100 80 true 1 "error_session" none none none) := by
  refine ⟨?_, ?_, ?_, rfl, rfl, rfl, rfl⟩
  · intro j h
    cases j <;> simp_all [isObject] <;> rfl
  · intro fs h
    simp [parse_message, isObject, getField, h]
  · intro fs t h h1 h2 h3 h4
    simp [parse_message, isObject, getField, h, h1, h2, h3, h4]

/-- C3 witness: the three failure branches at the concrete inputs the
test-suite uses. -/
theorem parse_message_fails_closed_witness :
    parse_message (Json.str "not a dict") = Except.error (ParseError.invalidDataType "str") ∧
    parse_message (Json.obj [("content", Json.str "test")])
      = Except.error ParseError.missingTypeField ∧
    parse_message (Json.obj [("type", Json.str "unknown_type")])
      = Except.error (ParseError.unknownType (Json.str "unknown_type")) := by
  refine ⟨?_, ?_, ?_⟩
  · exact parse_message_fails_closed.1 (Json.str "not a dict") rfl
  · exact parse_message_fails_closed.2.1 [("content", Json.str "test")] rfl
  · exact parse_message_fails_closed.2.2.1 [("type", Json.str "unknown_type")] "unknown_type"
      rfl (by decide) (by decide) (by decide) (by decide)

/-! ## Claim C8: result-message required and optional fields -/

/-- A raw result event with the six required fields and extra fields. -/
def mkResultObj (st : String) (d1 d2 : Int) (ie : Bool) (nt : Int) (sid : String)
    (extra : List (String × Json)) : Json :=
  Json.obj ([("type", Json.str "result"), ("subtype", Json.str st),
    ("duration_ms", Json.num d1), ("duration_api_ms", Json.num d2),
    ("is_error", Json.bool ie), ("num_turns", Json.num nt),
    ("session_id", Json.str sid)] ++ extra)

/-- Delete a field of a JSON object. -/
def removeField : Json → String → Json
  | Json.obj fs, k => Json.obj (fs.filter (fun p => if p.1 = k then false else true))
  | j, _ => j

/-- Full result fixture with all three optional fields populated. -/
def resultFixtureFull : Json :=
  mkResultObj "success" 1500 1200 false 3 "session_123"
    [("total_cost_usd", Json.num 25),
     ("usage", Json.obj [("input_tokens", Json.num 100)]),
     ("result", Json.str "Task completed successfully")]

/-- C8: a parsed result message requires subtype, duration_ms,
duration_api_ms, is_error, num_turns and session_id — deleting any one of
them fails with a missing-field ParseError naming that field — while
total_cost_usd, usage and result are optional and empty both when absent
and when explicitly null, and populated when present. -/
theorem result_message_required_and_optional_fields :
    (∀ (st : String) (d1 d2 : Int) (ie : Bool) (nt : Int) (sid : String),
      parse_message (mkResultObj st d1 d2 ie nt sid []) =
        Except.ok (Message.result st d1 d2 ie nt sid none none none)) ∧
    (∀ (st : String) (d1 d2 : Int) (ie : Bool) (nt : Int) (sid : String),
      parse_message (mkResultObj st d1 d2 ie nt sid
          [("total_cost_usd", Json.null), ("usage", Json.null), ("result", Json.null)]) =
        Except.ok (Message.result st d1 d2 ie nt sid none none none)) ∧
    parse_message resultFixtureFull =
      Except.ok (Message.result "success" 1500 1200 false 3 "session_123"
        (some (Json.num 25)) (some (Json.obj [("input_tokens", Json.num 100)]))
        (some (Json.str "Task completed successfully"))) ∧
    (∀ (st : String) (d1 d2 : Int) (ie : Bool) (nt : Int) (sid : String),
      parse_message (removeField (mkResultObj st d1 d2 ie nt sid []) "subtype") =
        Except.error (ParseError.missingField "result" "subtype") ∧
      parse_message (removeField (mkResultObj st d1 d2 ie nt sid []) "duration_ms") =
        Except.error (ParseError.missingField "result" "duration_ms") ∧
      parse_message (removeField (mkResultObj st d1 d2 ie nt sid []) "duration_api_ms") =
        Except.error (ParseError.missingField "result" "duration_api_ms") ∧
      parse_message (removeField (mkResultObj st d1 d2 ie nt sid []) "is_error") =
        Except.error (ParseError.missingField "result" "is_error") ∧
      parse_message (removeField (mkResultObj st d1 d2 ie nt sid []) "num_turns") =
        Except.error (ParseError.missingField "result" "num_turns") ∧
      parse_message (removeField (mkResultObj st d1 d2 ie nt sid []) "session_id") =
        Except.error (ParseError.missingField "result" "session_id")) := by
  exact ⟨fun st d1 d2 ie nt sid => rfl, fun st d1 d2 ie nt sid => rfl, rfl,
    fun st d1 d2 ie nt sid => ⟨rfl, rfl, rfl, rfl, rfl, rfl⟩⟩

/-! ## Claim C4: receive_response stops inclusively at first result -/

/-- Raw assistant event of the end-to-end scenario. -/
def rawAssistantEvent : Json :=
  Json.obj [("type", Json.str "assistant"),
    ("message", Json.obj [("model", Json.str "m"),
      ("content", Json.arr [Json.obj [("type", Json.str "text"), ("text", Json.str "4")]])])]

/-- Raw result event of the end-to-end scenario. -/
def rawResultEvent : Json :=
  Json.obj [("type", Json.str "result"), ("subtype", Json.str "success"),
    ("duration_ms", Json.num 10), ("duration_api_ms", Json.num 8),
    ("is_error", Json.bool false), ("num_turns", Json.num 1),
    ("session_id", Json.str "s")]

/-- Raw user event following the result in the scenario. -/
def rawUserEvent : Json :=
  Json.obj [("type", Json.str "user"),
    ("message", Json.obj [("role", Json.str "user"), ("content", Json.str "Hi")])]

/-- C4: receive_response yields the same parsed messages as
receive_messages but terminates inclusively at the first ResultMessage,
ignoring all subsequent events; over the event sequence
[assistant, result, user] it yields exactly the AssistantMessage followed
by the ResultMessage. -/
theorem receive_response_stops_at_first_result :
    (∀ (pres : List Json) (rj : Json) (posts : List Json)
       (msgsPre : List Message) (rm : Message),
      clientReceiveMessages pres = (msgsPre, none) →
      (∀ m ∈ msgsPre, isResultMessage m = false) →
      parse_message rj = Except.ok rm →
      isResultMessage rm = true →
      receiveResponse (pres ++ rj :: posts) = (msgsPre ++ [rm], none)) ∧
    receiveResponse [rawAssistantEvent, rawResultEvent, rawUserEvent] =
      ([Message.assistant "m" [ContentBlock.text "4"],
        Message.result "success" 10 8 false 1 "s" none none none], none) := by
  constructor
  · intro pres
    induction pres with
    | nil =>
      intro rj posts msgsPre rm hpre hnores hparse hres
      simp only [clientReceiveMessages, Prod.mk.injEq] at hpre
      rcases hpre with ⟨h1, _⟩
      subst h1
      simp [receiveResponse, hparse, hres]
    | cons p ps ih =>
      intro rj posts msgsPre rm hpre hnores hparse hres
      rcases hp : parse_message p with e | m
      · rw [show clientReceiveMessages (p :: ps)
            = ([], some e) by simp [clientReceiveMessages, hp]] at hpre
        simp at hpre
      · rcases hC : clientReceiveMessages ps with ⟨ms2, e2⟩
        rw [show clientReceiveMessages (p :: ps)
            = (m :: ms2, e2) by simp [clientReceiveMessages, hp, hC]] at hpre
        simp only [Prod.mk.injEq] at hpre
        rcases hpre with ⟨h1, h2⟩
        subst h1
        subst h2
        have hmfalse : isResultMessage m = false := hnores m (List.mem_cons_self m ms2)
        have hrest := ih rj posts ms2 rm hC
          (fun x hx => hnores x (List.mem_cons_of_mem m hx)) hparse hres
        simp [receiveResponse, hp, hmfalse, hrest]
  · rfl

/-- C4 witness: the general theorem applied to the concrete scenario. -/
theorem receive_response_stops_at_first_result_witness :
    clientReceiveMessages [rawAssistantEvent]
      = ([Message.assistant "m" [ContentBlock.text "4"]], none) ∧
    receiveResponse ([rawAssistantEvent] ++ rawResultEvent :: [rawUserEvent]) =
      ([Message.assistant "m" [ContentBlock.text "4"]]
        ++ [Message.result "success" 10 8 false 1 "s" none none none], none) := by
  refine ⟨rfl, ?_⟩
  exact receive_response_stops_at_first_result.1 [rawAssistantEvent] rawResultEvent
    [rawUserEvent] [Message.assistant "m" [ContentBlock.text "4"]]
    (Message.result "success" 10 8 false 1 "s" none none none)
    rfl
    (by intro m hm; rw [List.mem_singleton] at hm; subst hm; rfl)
    rfl rfl

/-! ## Claim C7: non-zero exit surfaces a process error -/

/-- C7: when the child process terminated with a non-zero exit code and
the output stream itself decoded cleanly, the receive sequence ends by
failing with a ProcessError carrying that exit code and the full captured
standard-error text, after yielding the filtered events. -/
theorem transport_nonzero_exit_process_error :
    ∀ (chunks : List (List Char)) (ec : Int) (st : String),
      (runDecoder chunks).2 = none → ec ≠ 0 →
      (receiveMessages true chunks ec st).2.2
          = some (TransportError.processError ec st) ∧
      (receiveMessages true chunks ec st).1
          = (receiveRun [] (runDecoder chunks).1).2 := by
  intro chunks ec st hd he
  rcases h : runDecoder chunks with ⟨objs, derr⟩
  rw [h] at hd
  simp only at hd
  subst hd
  rcases h2 : receiveRun [] objs with ⟨pend, ys⟩
  simp [receiveMessages, h, h2, he]

/-- C7 witness: an empty, cleanly-decoded stream with exit code 1 and the
captured stderr text of the test. -/
theorem transport_nonzero_exit_process_error_witness :
    (runDecoder ([] : List (List Char))).2 = none ∧ (1 : Int) ≠ 0 ∧
    (receiveMessages true [] 1 "Error: Something went wrong").2.2
      = some (TransportError.processError 1 "Error: Something went wrong") := by
  exact ⟨rfl, by decide,
    (transport_nonzero_exit_process_error [] 1 "Error: Something went wrong" rfl
      (by decide)).1⟩

/-! ## Claim C2: control responses filtered and stored -/

/-- The yielded side of the receive loop is exactly the decoded objects
that are not control responses, in order, for any starting map. -/
theorem receiveRun_snd (pending : List (String × Json)) (objs : List Json) :
    (receiveRun pending objs).2 = objs.filter (fun j => !isCtl j) := by
  induction objs generalizing pending with
  | nil => rfl
  | cons j js ih =>
    by_cases hc : isCtl j
    · simp [receiveRun, hc, ih]
    · rcases h : receiveRun pending js with ⟨pend2, ys⟩
      have := ih pending
      rw [h] at this
      simp only at this
      simp [receiveRun, hc, h, this]

/-- A non-control event has no stored payload. -/
theorem ctlPayload_eq_none_of_not_ctl {j : Json} (h : ¬ isCtl j) : ctlPayload j = none := by
  simp [ctlPayload, h]

/-- The pending map after the receive loop holds exactly the control
payloads of the stream, most recent first, on top of the starting map. -/
theorem receiveRun_fst (pending : List (String × Json)) (objs : List Json) :
    (receiveRun pending objs).1 = (objs.filterMap ctlPayload).reverse ++ pending := by
  induction objs generalizing pending with
  | nil => rfl
  | cons j js ih =>
    by_cases hc : isCtl j
    · rcases hp : ctlPayload j with _ | pr
      · simp [receiveRun, hc, hp, ih]
      · simp only [receiveRun, hc, if_true, hp, Option.elim]
        rw [ih]
        simp [List.filterMap_cons, hp]
    · rcases h : receiveRun pending js with ⟨pend2, ys⟩
      have := ih pending
      rw [h] at this
      simp only at this
      simp [receiveRun, hc, h, this, List.filterMap_cons,
        ctlPayload_eq_none_of_not_ctl hc]

/-- Looking up a key of an association list whose keys are distinct finds
the stored value. -/
theorem lookupPending_of_mem :
    ∀ (ps : List (String × Json)) (rid : String) (resp : Json),
      (ps.map Prod.fst).Nodup → (rid, resp) ∈ ps → lookupPending ps rid = some resp := by
  intro ps
  induction ps with
  | nil => intro rid resp _ hm; cases hm
  | cons p ps ih =>
    intro rid resp hnd hm
    rcases p with ⟨a, b⟩
    simp only [List.map_cons, List.nodup_cons] at hnd
    rcases hnd with ⟨hna, hnd⟩
    rcases List.mem_cons.mp hm with heq | htl
    · rcases Prod.mk.injEq .. ▸ heq with ⟨h1, h2⟩
      subst h1; subst h2
      simp [lookupPending]
    · have hne : a ≠ rid := by
        intro hcontra
        subst hcontra
        exact hna (List.mem_map.mpr ⟨(a, resp), htl, rfl⟩)
      simp [lookupPending, hne, ih rid resp hnd htl]

/-- The yield and pending sides of receiveMessages, for every exit status
and terminal error. -/
theorem receiveMessages_parts (chunks : List (List Char)) (ec : Int) (st : String) :
    (receiveMessages true chunks ec st).1
        = (runDecoder chunks).1.filter (fun j => !isCtl j) ∧
    (receiveMessages true chunks ec st).2.1
        = ((runDecoder chunks).1.filterMap ctlPayload).reverse := by
  rcases h : runDecoder chunks with ⟨objs, derr⟩
  rcases h2 : receiveRun [] objs with ⟨pend, ys⟩
  have hy := receiveRun_snd [] objs
  have hp := receiveRun_fst [] objs
  rw [h2] at hy hp
  simp only at hy hp
  rcases derr with _ | e
  · by_cases hec : ec = 0 <;> simp [receiveMessages, h, h2, hy, hp, hec]
  · simp [receiveMessages, h, h2, hy, hp]

/-- C2: a decoded control-response event is never yielded by the receive
path — every yielded object is a non-control event, in stream order,
unchanged — and, the per-transport request ids being distinct, the
response payload of every control-response event is retrievable from the
pending map by its request id. -/
theorem transport_filters_control_responses :
    ∀ (chunks : List (List Char)) (ec : Int) (st : String),
      (receiveMessages true chunks ec st).1
          = (runDecoder chunks).1.filter (fun j => !isCtl j) ∧
      (∀ j ∈ (runDecoder chunks).1, isCtl j = true →
        j ∉ (receiveMessages true chunks ec st).1) ∧
      ((((runDecoder chunks).1.filterMap ctlPayload).map Prod.fst).Nodup →
        ∀ j ∈ (runDecoder chunks).1, ∀ (rid : String) (resp : Json),
          ctlPayload j = some (rid, resp) →
          lookupPending (receiveMessages true chunks ec st).2.1 rid = some resp) := by
  intro chunks ec st
  rcases receiveMessages_parts chunks ec st with ⟨hy, hp⟩
  refine ⟨hy, ?_, ?_⟩
  · intro j _ hctl hmem
    rw [hy] at hmem
    rcases List.mem_filter.mp hmem with ⟨_, hfalse⟩
    rw [hctl] at hfalse
    simp at hfalse
  · intro hnd j hj rid resp hpay
    rw [hp]
    apply lookupPending_of_mem
    · rw [List.map_reverse, List.nodup_reverse]
      exact hnd
    · rw [List.mem_reverse]
      exact List.mem_filterMap.mpr ⟨j, hj, hpay⟩

/-- The three-line stream of the control-response filtering test. -/
def ctlChunks : List (List Char) :=
  [strL "\x7b\"type\": \"message1\"\x7d\n",
   strL "\x7b\"type\": \"control_response\", \"response\": \x7b\"request_id\": \"req_123\"\x7d\x7d\n",
   strL "\x7b\"type\": \"message2\"\x7d\n"]

/-- The decoded control-response event of that stream. -/
def ctlEventW : Json :=
  Json.obj [("type", Json.str "control_response"),
    ("response", Json.obj [("request_id", Json.str "req_123")])]

/-- C2 witness: on the concrete test stream the yielded events are the
two non-control messages and the control payload is retrievable by its
request id. -/
theorem transport_filters_control_responses_witness :
    (receiveMessages true ctlChunks 0 "").1
        = (runDecoder ctlChunks).1.filter (fun j => !isCtl j) ∧
    lookupPending (receiveMessages true ctlChunks 0 "").2.1 "req_123"
        = some (Json.obj [("request_id", Json.str "req_123")]) := by
  have h := transport_filters_control_responses ctlChunks 0 ""
  refine ⟨h.1, ?_⟩
  have hmem : ctlEventW ∈ (runDecoder ctlChunks).1 := by
    rw [show (runDecoder ctlChunks).1
        = [Json.obj [("type", Json.str "message1")], ctlEventW,
           Json.obj [("type", Json.str "message2")]] from rfl]
    exact List.mem_cons_of_mem _ (List.mem_cons_self _ _)
  exact h.2.2 (by decide) ctlEventW hmem "req_123"
    (Json.obj [("request_id", Json.str "req_123")]) rfl

/-! ## Claims C1 and C6: decoder lemmas -/

/-- A chunk without a newline splits into no complete line and itself as
residue. -/
theorem splitNl_eq_of_no_newline : ∀ (s : List Char), '\n' ∉ s → splitNl s = ([], s) := by
  intro s h
  induction s with
  | nil => rfl
  | cons c cs ih =>
    have hc : c ≠ '\n' := fun hcc => h (hcc ▸ List.mem_cons_self c cs)
    have hcs : '\n' ∉ cs := fun hm => h (List.mem_cons_of_mem c hm)
    simp [splitNl, ih hcs, hc]

/-- Splitting a stream that starts with a full newline-terminated line
peels that line off. -/
theorem splitNl_line_append : ∀ (l : List Char), '\n' ∉ l → ∀ (u : List Char),
    splitNl (l ++ '\n' :: u) = (l :: (splitNl u).1, (splitNl u).2) := by
  intro l hl
  induction l with
  | nil =>
    intro u
    rcases hsp : splitNl u with ⟨ls, res⟩
    simp [splitNl, hsp]
  | cons c l2 ih =>
    intro u
    have hc : c ≠ '\n' := fun hcc => hl (hcc ▸ List.mem_cons_self c l2)
    have hl2 : '\n' ∉ l2 := fun hm => hl (List.mem_cons_of_mem c hm)
    have ihu := ih hl2 u
    rcases hsp : splitNl u with ⟨ls, res⟩
    rw [hsp] at ihu
    simp only at ihu
    simp [splitNl, ihu, hc, hsp]

/-- The residue of a split never contains a newline. -/
theorem splitNl_residue_no_newline : ∀ (s : List Char), '\n' ∉ (splitNl s).2 := by
  intro s
  induction s with
  | nil => simp [splitNl]
  | cons c cs ih =>
    rcases hsp : splitNl cs with ⟨ls, res⟩
    rw [hsp] at ih
    simp only at ih
    by_cases hc : c = '\n'
    · simp [splitNl, hsp, hc, ih]
    · rcases ls with _ | ⟨l, ls2⟩
      · simp only [splitNl, hsp, hc, if_false, List.mem_cons]
        intro hor
        rcases hor with h1 | h2
        · exact hc h1.symm
        · exact ih h2
      · simp [splitNl, hsp, hc, ih]

/-- Unfolding one line of a well-formed stream. -/
theorem joinLines_cons (l : List Char) (ls : List (List Char)) :
    joinLines (l :: ls) = l ++ '\n' :: joinLines ls := by
  simp [joinLines]

/-- Splitting any contiguous piece of a well-formed stream, taken from
the start, produces exactly the fully-covered lines of the stream, and a
residue that continues the remaining lines. -/
theorem splitNl_of_append_joinLines :
    ∀ (rem : List (List Char)) (s t : List Char),
      s ++ t = joinLines rem → (∀ l ∈ rem, '\n' ∉ l) →
      ∃ (k : Nat) (res : List Char),
        k ≤ rem.length ∧ splitNl s = (rem.take k, res) ∧
        res ++ t = joinLines (rem.drop k) := by
  intro rem
  induction rem with
  | nil =>
    intro s t h _
    have h0 : s ++ t = [] := by simpa [joinLines] using h
    rcases List.append_eq_nil.mp h0 with ⟨hs, ht⟩
    subst hs; subst ht
    exact ⟨0, [], by simp, by simp [splitNl], by simp [joinLines]⟩
  | cons l rem2 ih =>
    intro s t h hnl
    rw [joinLines_cons] at h
    have hnll : '\n' ∉ l := hnl l (List.mem_cons_self _ _)
    rcases le_or_lt s.length l.length with hle | hlt
    · have hs : s = l.take s.length := by
        have h1 : List.take s.length (s ++ t) = s := List.take_left s t
        have h2 : List.take s.length (l ++ '\n' :: joinLines rem2) = List.take s.length l :=
          List.take_append_of_le_length hle
        rw [h, h2] at h1
        exact h1.symm
      have hnos : '\n' ∉ s := by
        rw [hs]
        intro hm
        exact hnll (List.mem_of_mem_take hm)
      refine ⟨0, s, Nat.zero_le _, by simp [splitNl_eq_of_no_newline s hnos], ?_⟩
      simp only [List.drop_zero]
      rw [joinLines_cons]
      exact h
    · have htake : List.take l.length s = l := by
        have h1 : List.take l.length (s ++ t) = List.take l.length s :=
          List.take_append_of_le_length (le_of_lt hlt)
        have h2 : List.take l.length (l ++ '\n' :: joinLines rem2) = l := List.take_left l _
        rw [h] at h1
        rw [h2] at h1
        exact h1.symm
      have hd : s = l ++ List.drop l.length s := by
        conv_lhs => rw [← List.take_append_drop l.length s]
        rw [htake]
      have hdrop_ne : List.drop l.length s ≠ [] := by
        intro hnil
        have hlend := List.length_drop l.length s
        rw [hnil] at hlend
        simp only [List.length_nil] at hlend
        omega
      rcases List.exists_cons_of_ne_nil hdrop_ne with ⟨c0, s2, hcons⟩
      have hdt : List.drop l.length s ++ t = '\n' :: joinLines rem2 := by
        apply @List.append_cancel_left _ l
        rw [← List.append_assoc, ← hd]
        exact h
      rw [hcons] at hdt
      simp only [List.cons_append] at hdt
      injection hdt with hc0 hs2t
      subst hc0
      rcases ih s2 t hs2t (fun x hx => hnl x (List.mem_cons_of_mem _ hx)) with
        ⟨k2, res2, hk2, hsp2, hres2⟩
      refine ⟨k2 + 1, res2, by simpa using Nat.succ_le_succ hk2, ?_, ?_⟩
      · rw [hd, hcons, splitNl_line_append l hnll s2, hsp2]
        simp [List.take_succ_cons]
      · simpa [List.drop_succ_cons] using hres2

/-- A newline-free residue that continues a well-formed stream is no
longer than the stream's line bound. -/
theorem residue_length_le :
    ∀ (rem : List (List Char)) (res t : List Char) (n : Nat),
      res ++ t = joinLines rem → '\n' ∉ res → (∀ l ∈ rem, l.length ≤ n) →
      res.length ≤ n := by
  intro rem res t n h hnl hlen
  rcases rem with _ | ⟨l, rem2⟩
  · have h0 : res ++ t = [] := by simpa [joinLines] using h
    rcases List.append_eq_nil.mp h0 with ⟨hs, _⟩
    simp [hs]
  · rw [joinLines_cons] at h
    have hle : res.length ≤ l.length := by
      by_contra hgt
      push_neg at hgt
      have h1 : (res ++ t)[l.length]? = res[l.length]? := by
        rw [List.getElem?_append]
        simp [hgt]
      have h2 : (l ++ '\n' :: joinLines rem2)[l.length]? = some '\n' := by
        rw [List.getElem?_append]
        simp
      rw [h, h2] at h1
      have hmem : '\n' ∈ res := by
        rcases List.getElem?_eq_some.mp h1.symm with ⟨hlt2, hget⟩
        exact hget ▸ List.getElem_mem hlt2
      exact hnl hmem
    exact le_trans hle (hlen l (List.mem_cons_self _ _))

/-- A blank line never decodes as JSON. -/
theorem parseJson_eq_none_of_blank {l : List Char} (h : skipWs l = []) :
    parseJson l = none := by
  have hfuel : 2 * l.length + 4 = (2 * l.length + 3) + 1 := rfl
  unfold parseJson
  rw [hfuel]
  simp [parseValue, h]

/-- A line that decodes as JSON is not blank. -/
theorem parseJson_isSome_not_blank {l : List Char} (h : (parseJson l).isSome) :
    (skipWs l).isEmpty = false := by
  rcases h' : skipWs l with _ | ⟨c, cs⟩
  · rw [parseJson_eq_none_of_blank h'] at h
    simp at h
  · simp [List.isEmpty]

/-- A batch of lines that all decode is processed fully, yielding their
decoded objects in order with no error. -/
theorem processLines_all_parse :
    ∀ (ls : List (List Char)), (∀ l ∈ ls, (parseJson l).isSome) →
      processLines ls = (ls.filterMap parseJson, none) := by
  intro ls h
  induction ls with
  | nil => rfl
  | cons l ls2 ih =>
    have hl := h l (List.mem_cons_self _ _)
    have hblank := parseJson_isSome_not_blank hl
    rcases hp : parseJson l with _ | j
    · rw [hp] at hl
      simp at hl
    · have hrest := ih (fun x hx => h x (List.mem_cons_of_mem _ hx))
      simp [processLines, hblank, hp, hrest, List.filterMap_cons]

/-- When every line decodes, the decoded batch has one object per line. -/
theorem filterMap_parseJson_length :
    ∀ (ls : List (List Char)), (∀ l ∈ ls, (parseJson l).isSome) →
      (ls.filterMap parseJson).length = ls.length := by
  intro ls h
  induction ls with
  | nil => rfl
  | cons l ls2 ih =>
    have hl := h l (List.mem_cons_self _ _)
    rcases hp : parseJson l with _ | j
    · rw [hp] at hl
      simp at hl
    · simp [List.filterMap_cons, hp, ih (fun x hx => h x (List.mem_cons_of_mem _ hx))]

/-- The decoder loop, started on any newline-free residue, consumes a
chunked continuation of a well-formed stream of decodable lines of
bounded length into exactly the lines' decoded objects, in order. -/
theorem runFrom_joinLines :
    ∀ (chunks : List (List Char)) (buf : List Char) (rem : List (List Char)),
      buf ++ chunks.flatten = joinLines rem →
      '\n' ∉ buf →
      (∀ l ∈ rem, '\n' ∉ l) →
      (∀ l ∈ rem, (parseJson l).isSome) →
      (∀ l ∈ rem, l.length ≤ MAX_BUFFER_SIZE) →
      runFrom buf chunks = (rem.filterMap parseJson, none) := by
  intro chunks
  induction chunks with
  | nil =>
    intro buf rem h hbuf hnl hps hlen
    rcases rem with _ | ⟨l, rem2⟩
    · rfl
    · exfalso
      rw [joinLines_cons] at h
      simp only [List.flatten_nil, List.append_nil] at h
      apply hbuf
      rw [h]
      exact List.mem_append.mpr (Or.inr (List.mem_cons_self _ _))
  | cons c cs ih =>
    intro buf rem h hbuf hnl hps hlen
    have hs : (buf ++ c) ++ cs.flatten = joinLines rem := by
      rw [List.append_assoc]
      simpa [List.flatten_cons] using h
    rcases splitNl_of_append_joinLines rem (buf ++ c) cs.flatten hs hnl with
      ⟨k, res, hk, hsp, hres⟩
    have hpl : processLines (rem.take k) = ((rem.take k).filterMap parseJson, none) :=
      processLines_all_parse _ (fun x hx => hps x (List.mem_of_mem_take hx))
    have hresnl : '\n' ∉ res := by
      have hr := splitNl_residue_no_newline (buf ++ c)
      rw [hsp] at hr
      simpa using hr
    have hreslen : res.length ≤ MAX_BUFFER_SIZE :=
      residue_length_le (rem.drop k) res cs.flatten MAX_BUFFER_SIZE hres hresnl
        (fun x hx => hlen x (List.mem_of_mem_drop hx))
    have hrec : runFrom res cs = ((rem.drop k).filterMap parseJson, none) :=
      ih res (rem.drop k) hres hresnl
        (fun x hx => hnl x (List.mem_of_mem_drop hx))
        (fun x hx => hps x (List.mem_of_mem_drop hx))
        (fun x hx => hlen x (List.mem_of_mem_drop hx))
    have hnotlt : ¬ MAX_BUFFER_SIZE < res.length := not_lt.mpr hreslen
    have hunfold : runFrom buf (c :: cs)
        = ((rem.take k).filterMap parseJson ++ (rem.drop k).filterMap parseJson, none) := by
      simp only [runFrom]
      rw [hsp]
      simp only
      rw [hpl]
      simp only
      rw [if_neg hnotlt, hrec]
    rw [hunfold, ← List.filterMap_append, List.take_append_drop]

/-- C1 (amended): for every well-formed JSON-lines stream — every line
decodable, newline-free, and no longer than the 1 MiB buffer maximum —
delivered as any split into arbitrarily-sized chunks, the decoder of the
receive path yields exactly one decoded object per line, in the order of
the lines, independent of the chunk boundaries, with no error. -/
theorem decoder_chunk_boundary_invariance :
    ∀ (ls chunks : List (List Char)),
      chunks.flatten = joinLines ls →
      (∀ l ∈ ls, '\n' ∉ l) →
      (∀ l ∈ ls, (parseJson l).isSome) →
      (∀ l ∈ ls, l.length ≤ MAX_BUFFER_SIZE) →
      runDecoder chunks = (ls.filterMap parseJson, none) ∧
      (ls.filterMap parseJson).length = ls.length := by
  intro ls chunks h1 h2 h3 h4
  refine ⟨?_, filterMap_parseJson_length ls h3⟩
  exact runFrom_joinLines chunks [] ls (by simpa using h1) (by simp) h2 h3 h4

/-- First line of the chunk-invariance witness stream. -/
def wLine1 : List Char := strL "\x7b\"id\": 1\x7d"

/-- Second line of the chunk-invariance witness stream. -/
def wLine2 : List Char := strL "\x7b\"id\": 2\x7d"

/-- A three-chunk delivery of the two-line stream with boundaries inside
a line and between lines. -/
def wChunks : List (List Char) :=
  [strL "\x7b\"id", strL "\": 1\x7d\n\x7b\"id\": 2\x7d", strL "\n"]

/-- C1 witness: the two-line stream cut at arbitrary boundaries yields
exactly its two objects in order. -/
theorem decoder_chunk_boundary_invariance_witness :
    runDecoder wChunks = ([wLine1, wLine2].filterMap parseJson, none) ∧
    ([wLine1, wLine2].filterMap parseJson).length = [wLine1, wLine2].length :=
  decoder_chunk_boundary_invariance [wLine1, wLine2] wChunks
    (by decide) (by decide) (by decide) (by decide)

/-- Scanning a replicated non-quote body stops at the closing quote. -/
theorem scanStr_replicate :
    ∀ (n : Nat) (rest : List Char),
      scanStr (List.replicate n 'a' ++ '"' :: rest) = some (List.replicate n 'a', rest) := by
  intro n
  induction n with
  | zero =>
    intro rest
    rw [List.replicate_zero, List.nil_append, scanStr.eq_def]
    simp
  | succ m ih =>
    intro rest
    rw [List.replicate_succ, List.cons_append, scanStr.eq_def]
    simp [ih rest]

/-- Leading non-whitespace is kept by the whitespace skipper. -/
theorem skipWs_cons_of_not_ws {c : Char} (h : isWsCh c = false) (cs : List Char) :
    skipWs (c :: cs) = c :: cs := by
  rw [skipWs.eq_def]
  simp [h]

/-- The whitespace skipper on the empty line. -/
theorem skipWs_nil : skipWs [] = [] := by
  rw [skipWs.eq_def]

/-- A line consisting of one long JSON string literal is valid JSON of
any length. -/
theorem parseJson_strLine (n : Nat) :
    parseJson ('"' :: (List.replicate n 'a' ++ ['"']))
      = some (Json.str (String.mk (List.replicate n 'a'))) := by
  have hlen : ('"' :: (List.replicate n 'a' ++ ['"'])).length = n + 2 := by simp
  have hsw := skipWs_cons_of_not_ws (c := '"') (by decide) (List.replicate n 'a' ++ ['"'])
  have hscan : scanStr (List.replicate n 'a' ++ ['"']) = some (List.replicate n 'a', []) := by
    rw [show (['"'] : List Char) = '"' :: [] from rfl, scanStr_replicate]
  unfold parseJson
  rw [hlen]
  rw [show 2 * (n + 2) + 4 = Nat.succ (2 * (n + 2) + 3) from rfl]
  rw [parseValue.eq_def]
  simp [hsw, hscan, skipWs_nil]

/-- A single JSON string line longer than twice the buffer maximum. -/
def oversizedLine : List Char :=
  '"' :: (List.replicate (2 * MAX_BUFFER_SIZE) 'a' ++ ['"'])

/-- The oversized line contains no newline. -/
theorem oversizedLine_no_newline : '\n' ∉ oversizedLine := by
  intro h
  rcases List.mem_cons.mp h with h1 | h2
  · exact absurd h1 (by decide)
  · rcases List.mem_append.mp h2 with h3 | h4
    · exact absurd (List.mem_replicate.mp h3).2 (by decide)
    · exact absurd (List.mem_singleton.mp h4) (by decide)

/-- Length of the oversized line. -/
theorem oversizedLine_length : oversizedLine.length = 2 * MAX_BUFFER_SIZE + 2 := by
  show ('"' :: (List.replicate (2 * MAX_BUFFER_SIZE) 'a' ++ ['"'])).length
      = 2 * MAX_BUFFER_SIZE + 2
  rw [List.length_cons, List.length_append, List.length_replicate]
  simp

/-- A feed whose buffer extended by the incoming chunk exceeds the
maximum without containing a newline stops with the overflow error,
yielding nothing. -/
theorem runFrom_overflow (buf c : List Char) (cs : List (List Char))
    (hnl : '\n' ∉ buf ++ c) (hlt : MAX_BUFFER_SIZE < (buf ++ c).length) :
    runFrom buf (c :: cs) = ([], some (DecodeError.bufferOverflow (buf ++ c).length)) := by
  simp only [runFrom]
  rw [splitNl_eq_of_no_newline _ hnl]
  simp only
  rw [show processLines [] = ([], none) from rfl]
  simp only
  rw [if_pos hlt]

/-- C1 counterexample: the claim as stated fails.  The well-formed
one-line stream whose single valid JSON line is longer than the buffer
maximum, delivered as two chunks with the boundary before the newline,
yields zero objects instead of one: the receive path fails with a buffer
overflow at that chunk boundary. -/
theorem decoder_oversized_line_counterexample :
    ('\n' ∉ oversizedLine) ∧
    (parseJson oversizedLine).isSome = true ∧
    [oversizedLine, ['\n']].flatten = joinLines [oversizedLine] ∧
    (runDecoder [oversizedLine, ['\n']]).1.length = 0 ∧
    (runDecoder [oversizedLine, ['\n']]).2
      = some (DecodeError.bufferOverflow (2 * MAX_BUFFER_SIZE + 2)) := by
  have hnl := oversizedLine_no_newline
  have hlen := oversizedLine_length
  have hlt : MAX_BUFFER_SIZE < oversizedLine.length := by
    rw [hlen]
    omega
  have hrun : runDecoder [oversizedLine, ['\n']]
      = ([], some (DecodeError.bufferOverflow (2 * MAX_BUFFER_SIZE + 2))) := by
    unfold runDecoder
    have h := runFrom_overflow [] oversizedLine [['\n']]
      (by rw [List.nil_append]; exact hnl)
      (by rw [List.nil_append]; exact hlt)
    rw [List.nil_append] at h
    rw [h, hlen]
  refine ⟨hnl, ?_, ?_, ?_, ?_⟩
  · rw [show oversizedLine = '"' :: (List.replicate (2 * MAX_BUFFER_SIZE) 'a' ++ ['"'])
        from rfl, parseJson_strLine]
    rfl
  · simp [joinLines]
  · rw [hrun]
    rfl
  · rw [hrun]

/-- C6: whenever the decoder's accumulated buffer, extended by the next
chunk, has grown past the 1 MiB maximum without a newline having been
seen, the receive path fails with a buffer-overflow decode error and
yields zero objects from that incomplete line; at the transport level the
failure surfaces as a JSON-decode transport error. -/
theorem decoder_buffer_overflow :
    (∀ (buf c : List Char) (cs : List (List Char)),
      '\n' ∉ buf ++ c → MAX_BUFFER_SIZE < (buf ++ c).length →
      runFrom buf (c :: cs) = ([], some (DecodeError.bufferOverflow (buf ++ c).length))) ∧
    (∀ (c : List Char) (cs : List (List Char)) (ec : Int) (st : String),
      '\n' ∉ c → MAX_BUFFER_SIZE < c.length →
      receiveMessages true (c :: cs) ec st =
        ([], [], some (TransportError.jsonDecode (DecodeError.bufferOverflow c.length)))) := by
  constructor
  · exact runFrom_overflow
  · intro c cs ec st hnl hlt
    have h := runFrom_overflow [] c cs (by simpa using hnl) (by simpa using hlt)
    rw [List.nil_append] at h
    simp [receiveMessages, runDecoder, h, receiveRun]

/-- A single chunk one byte past the buffer maximum, with no newline. -/
def overflowChunk : List Char := List.replicate (MAX_BUFFER_SIZE + 1) 'x'

/-- C6 witness: the overflow chunk of the test — one byte past 1 MiB and
never newline-terminated — fails the receive path with the overflow
error and yields nothing. -/
theorem decoder_buffer_overflow_witness :
    ('\n' ∉ overflowChunk) ∧ MAX_BUFFER_SIZE < overflowChunk.length ∧
    receiveMessages true [overflowChunk] 0 "" =
      ([], [], some (TransportError.jsonDecode
        (DecodeError.bufferOverflow overflowChunk.length))) := by
  have h1 : '\n' ∉ overflowChunk := by
    intro h
    exact absurd (List.mem_replicate.mp h).2 (by decide)
  have h2 : MAX_BUFFER_SIZE < overflowChunk.length := by
    show MAX_BUFFER_SIZE < (List.replicate (MAX_BUFFER_SIZE + 1) 'x').length
    rw [List.length_replicate]
    omega
  exact ⟨h1, h2, decoder_buffer_overflow.2 overflowChunk [] 0 "" h1 h2⟩
